import Mathlib

/-!
Verification of the LL-journal entry write coordinator.

The definitions below are a shallow embedding of the Go sources:
`internal/journal/journal.go` (the coordinator), `internal/git/git.go`
(the per-user version repository), `internal/s3/s3.go` (the blob store
and the `store` metadata package embedded in that file), and
`internal/handlers/handlers.go` (request-level validation).
Backend failures are injected through an explicit `Faults` record so
that the saga's compensation paths are reachable in the model.
-/

namespace LLJournal

/-- A calendar date, the result of parsing a `YYYY-MM-DD` string. -/
structure Date where
  year : Nat
  month : Nat
  day : Nat
deriving DecidableEq

def digitVal (c : Char) : Nat := c.toNat - 48

def isLeap (y : Nat) : Bool := y % 4 == 0 && (y % 100 != 0 || y % 400 == 0)

def daysInMonth (y m : Nat) : Nat :=
  if m = 2 then (if isLeap y then 29 else 28)
  else if m = 4 ∨ m = 6 ∨ m = 9 ∨ m = 11 then 30
  else 31

/-- Embedding of `time.Parse("2006-01-02", entryDate)`: exactly ten
characters, fixed-width numeric fields, month and day range-checked. -/
def parseDate (s : String) : Option Date :=
  match s.data with
  | [y1, y2, y3, y4, h1, m1, m2, h2, d1, d2] =>
    if y1.isDigit ∧ y2.isDigit ∧ y3.isDigit ∧ y4.isDigit ∧ h1 = '-' ∧
       m1.isDigit ∧ m2.isDigit ∧ h2 = '-' ∧ d1.isDigit ∧ d2.isDigit then
      let y := ((digitVal y1 * 10 + digitVal y2) * 10 + digitVal y3) * 10 + digitVal y4
      let m := digitVal m1 * 10 + digitVal m2
      let d := digitVal d1 * 10 + digitVal d2
      if 1 ≤ m ∧ m ≤ 12 ∧ 1 ≤ d ∧ d ≤ daysInMonth y m then some ⟨y, m, d⟩ else none
    else none
  | _ => none

def pad2 (n : Nat) : String := if n < 10 then "0" ++ toString n else toString n

def pad4 (n : Nat) : String :=
  if n < 10 then "000" ++ toString n
  else if n < 100 then "00" ++ toString n
  else if n < 1000 then "0" ++ toString n
  else toString n

/-- Embedding of `EntryDate.Format("2006-01-02")`. -/
def formatDate (d : Date) : String :=
  pad4 d.year ++ "-" ++ pad2 d.month ++ "-" ++ pad2 d.day

/-- Whitespace as Go's `unicode.IsSpace` sees it for the Latin-1 range. -/
def isSpaceGo (c : Char) : Bool :=
  c = ' ' ∨ c = '\t' ∨ c = '\n' ∨ c = '\x0b' ∨ c = '\x0c' ∨ c = '\r' ∨
  c = '\x85' ∨ c = '\xa0'

def countWordsAux : List Char → Bool → Nat
  | [], _ => 0
  | c :: rest, inWord =>
    if isSpaceGo c then countWordsAux rest false
    else (if inWord then 0 else 1) + countWordsAux rest true

/-- Embedding of `countWords`: `strings.Fields` counts maximal
non-whitespace runs. -/
def countWords (s : String) : Nat := countWordsAux s.data false

/-- Pass 1 of `sanitizeMarkdown`: `strings.ReplaceAll(content, "\x00", "")`. -/
def removeNul (l : List Char) : List Char := l.filter (fun c => c ≠ '\x00')

/-- Pass 2: `strings.ReplaceAll(content, "\r\n", "\n")`, left-to-right,
non-overlapping, the replacement is not rescanned. -/
def replaceCRLF : List Char → List Char
  | '\r' :: '\n' :: rest => '\n' :: replaceCRLF rest
  | c :: rest => c :: replaceCRLF rest
  | [] => []

/-- Pass 3: `strings.ReplaceAll(content, "\r", "\n")`. -/
def replaceCR (l : List Char) : List Char :=
  l.map (fun c => if c = '\r' then '\n' else c)

/-- Embedding of `sanitizeMarkdown`: the three replacement passes run
in the order the Go code runs them. -/
def sanitizeMarkdown (content : String) : String :=
  ⟨replaceCR (replaceCRLF (removeNul content.data))⟩

/-- Embedding of `s3.GenerateKey`. -/
def generateKey (userSub journalID entryDate : String) : String :=
  userSub ++ "/" ++ journalID ++ "/" ++ entryDate ++ ".md"

/-- Error kinds of the coordinator, per the handler's classification of
the wrapped error strings. -/
inductive Err
  | validation
  | notFound
  | conflict
  | storage
  | commit
  | dbError
deriving DecidableEq

/-- Injected backend failures, one flag per fallible backend call. -/
structure Faults where
  s3Upload : Bool
  s3Delete : Bool
  gitCommit : Bool
  dbCreateEntry : Bool
  dbUpdateEntry : Bool
  dbCreateVersion : Bool
deriving DecidableEq

def noFaults : Faults := ⟨false, false, false, false, false, false⟩

instance {α : Type} [DecidableEq α] : DecidableEq (Except Err α) := fun x y =>
  match x, y with
  | .ok a, .ok b =>
    if h : a = b then .isTrue (by rw [h]) else .isFalse (fun hx => h (Except.ok.inj hx))
  | .error a, .error b =>
    if h : a = b then .isTrue (by rw [h]) else .isFalse (fun hx => h (Except.error.inj hx))
  | .ok _, .error _ => .isFalse (fun hx => Except.noConfusion hx)
  | .error _, .ok _ => .isFalse (fun hx => Except.noConfusion hx)

/-- `store.Journal`. -/
structure Journal where
  id : String
  userSub : String
  title : String
  description : Option String
deriving DecidableEq

/-- `store.JournalEntry`. -/
structure JournalEntry where
  id : String
  journalID : String
  entryDate : Date
  s3Key : String
  gitCommitHash : Option String
  wordCount : Option Nat
deriving DecidableEq

/-- `store.JournalVersion`. -/
structure JournalVersion where
  id : String
  entryID : String
  commitHash : String
  commitMessage : Option String
  authorName : Option String
  authorEmail : Option String
  createdAt : Nat
deriving DecidableEq

/-- A git commit: stable hash, metadata, and the full tree snapshot as
a path-to-content map. -/
structure Commit where
  hash : String
  message : String
  authorName : String
  authorEmail : String
  when : Nat
  tree : List (String × String)
deriving DecidableEq

/-- A per-user repository: its commits, oldest first; the head is the
last element. -/
structure Repo where
  commits : List Commit
deriving DecidableEq

/-- `git.CommitInfo`. -/
structure CommitInfo where
  hash : String
  message : String
  authorName : String
  authorEmail : String
  createdAt : Nat
deriving DecidableEq

/-- `filepath.Join(journalID, entryDate + ".md")`. -/
def gitPath (journalID entryDate : String) : String :=
  journalID ++ "/" ++ entryDate ++ ".md"

def systemAuthorName : String := "LifeLogger System"

def systemAuthorEmail : String := "system@lifelogger.life"

/-- Association-list lookup (first match wins). -/
def lookupA {α : Type} (l : List (String × α)) (k : String) : Option α :=
  match l.find? (fun p => p.1 == k) with
  | some p => some p.2
  | none => none

/-- Remove every binding of a key. -/
def eraseKey {α : Type} (l : List (String × α)) (k : String) : List (String × α) :=
  l.filter (fun p => p.1 != k)

/-- Overwrite-or-insert a binding. -/
def setA {α : Type} (l : List (String × α)) (k : String) (v : α) : List (String × α) :=
  (k, v) :: eraseKey l k

/-- The whole backend state: blob store, per-user repositories, and the
three metadata tables, plus a logical clock for generated identifiers
and timestamps. -/
structure St where
  s3 : List (String × String)
  repos : List (String × Repo)
  journals : List Journal
  entries : List JournalEntry
  versions : List JournalVersion
  clock : Nat
deriving DecidableEq

def emptySt : St := ⟨[], [], [], [], [], 0⟩

/-- `s3.Upload`. -/
def s3UploadOp (b : Bool) (st : St) (key content : String) : Except Err Unit × St :=
  if b then (.error .storage, st)
  else (.ok (), { st with s3 := setA st.s3 key content })

/-- `s3.Delete`. -/
def s3DeleteOp (b : Bool) (st : St) (key : String) : Except Err Unit × St :=
  if b then (.error .storage, st)
  else (.ok (), { st with s3 := eraseKey st.s3 key })

/-- `s3.Download` (a pure read). -/
def s3DownloadOp (st : St) (key : String) : Option String := lookupA st.s3 key

/-- `git.GetOrInitRepo`: open the user's repository, or initialize it
with an initial commit holding only `.gitkeep`. -/
def getOrInitRepo (st : St) (userSub : String) : Repo × St :=
  match lookupA st.repos userSub with
  | some r => (r, st)
  | none =>
    let c0 : Commit :=
      { hash := "h" ++ toString st.clock, message := "Initial commit",
        authorName := systemAuthorName, authorEmail := systemAuthorEmail,
        when := st.clock, tree := [(".gitkeep", "")] }
    let r : Repo := ⟨[c0]⟩
    (r, { st with repos := setA st.repos userSub r, clock := st.clock + 1 })

/-- `git.CommitFile`: write the file into the working tree; if the
status is clean (the head already records exactly this content at this
path) return the head hash without committing, otherwise commit the
updated tree. -/
def commitFile (b : Bool) (st : St) (userSub journalID entryDate content message : String) :
    Except Err String × St :=
  let pr := getOrInitRepo st userSub
  let repo := pr.1
  let st1 := pr.2
  if b then (.error .commit, st1)
  else
    match repo.commits.getLast? with
    | none => (.error .commit, st1)
    | some head =>
      let path := gitPath journalID entryDate
      if lookupA head.tree path = some content then
        (.ok head.hash, st1)
      else
        let msg := if message = "" then "Entry for " ++ entryDate else message
        let c : Commit :=
          { hash := "h" ++ toString st1.clock, message := msg,
            authorName := systemAuthorName, authorEmail := systemAuthorEmail,
            when := st1.clock, tree := setA head.tree path content }
        let repo2 : Repo := ⟨repo.commits ++ [c]⟩
        (.ok c.hash, { st1 with repos := setA st1.repos userSub repo2, clock := st1.clock + 1 })

/-- `git.GetFileContent`: resolve the commit (head when the hash is
empty), then read the path out of its tree. -/
def getFileContent (st : St) (userSub journalID entryDate commitHash : String) :
    Except Err String × St :=
  let pr := getOrInitRepo st userSub
  let repo := pr.1
  let st1 := pr.2
  let found :=
    if commitHash = "" then repo.commits.getLast?
    else repo.commits.find? (fun c => c.hash == commitHash)
  match found with
  | none => (.error .notFound, st1)
  | some c =>
    match lookupA c.tree (gitPath journalID entryDate) with
    | none => (.error .notFound, st1)
    | some content => (.ok content, st1)

def commitToInfo (c : Commit) : CommitInfo :=
  ⟨c.hash, c.message, c.authorName, c.authorEmail, c.when⟩

/-- `git.ListCommits`: walk the log newest-first from the head, keep
commits whose tree contains the path, then reverse into chronological
order. -/
def listCommits (st : St) (userSub journalID entryDate : String) :
    Except Err (List CommitInfo) × St :=
  let pr := getOrInitRepo st userSub
  let repo := pr.1
  let st1 := pr.2
  match repo.commits.getLast? with
  | none => (.error .commit, st1)
  | some _ =>
    let path := gitPath journalID entryDate
    let infos :=
      (((repo.commits.reverse).filter (fun c => (lookupA c.tree path).isSome)).map
        commitToInfo).reverse
    (.ok infos, st1)

/-- `store.GetJournal`: row scoped by id and owning user. -/
def lookupJournal (st : St) (id userSub : String) : Option Journal :=
  st.journals.find? (fun j => j.id == id && j.userSub == userSub)

/-- `store.GetJournalEntryByDate`. -/
def getJournalEntryByDate (st : St) (journalID : String) (date : Date) : Option JournalEntry :=
  st.entries.find? (fun e => e.journalID == journalID && e.entryDate == date)

/-- `store.CreateJournalEntry`: generated id, insert; the
`UNIQUE(journal_id, entry_date)` constraint fails the insert on a
duplicate. -/
def createJournalEntryRow (b : Bool) (st : St) (e : JournalEntry) :
    Except Err JournalEntry × St :=
  if b then (.error .dbError, st)
  else if (st.entries.find? (fun e2 => e2.journalID == e.journalID &&
      e2.entryDate == e.entryDate)).isSome then
    (.error .dbError, st)
  else
    let e2 := { e with id := "journal-" ++ toString st.clock }
    (.ok e2, { st with entries := st.entries ++ [e2], clock := st.clock + 1 })

/-- `store.CreateJournalVersion`: generated id, insert; the
`UNIQUE(entry_id, commit_hash)` constraint fails the insert on a
duplicate. -/
def createJournalVersionRow (b : Bool) (st : St) (v : JournalVersion) :
    Except Err JournalVersion × St :=
  if b then (.error .dbError, st)
  else if (st.versions.find? (fun v2 => v2.entryID == v.entryID &&
      v2.commitHash == v.commitHash)).isSome then
    (.error .dbError, st)
  else
    let v2 := { v with id := "journal-" ++ toString st.clock }
    (.ok v2, { st with versions := st.versions ++ [v2], clock := st.clock + 1 })

/-- `store.UpdateJournalEntry`: update s3 key, commit hash and word
count of the row with this id. -/
def updateJournalEntryRow (b : Bool) (st : St) (e : JournalEntry) : Except Err Unit × St :=
  if b then (.error .dbError, st)
  else
    (.ok (), { st with entries := st.entries.map (fun e2 =>
      if e2.id == e.id then
        { e2 with s3Key := e.s3Key, gitCommitHash := e.gitCommitHash, wordCount := e.wordCount }
      else e2) })

/-- `store.DeleteJournalEntry` plus the schema's `ON DELETE CASCADE`
from entries to versions. -/
def deleteJournalEntryRow (st : St) (id : String) : Except Err Unit × St :=
  (.ok (), { st with entries := st.entries.filter (fun e => e.id != id),
                     versions := st.versions.filter (fun v => v.entryID != id) })

/-- `store.DeleteJournal` plus the schema's cascades: deleting the
journal row (scoped by id and user) cascades to its entries and their
versions; when no row matches, nothing is deleted and no error is
returned. -/
def deleteJournalRow (st : St) (id userSub : String) : Except Err Unit × St :=
  if (st.journals.find? (fun j => j.id == id && j.userSub == userSub)).isSome then
    let delIds := (st.entries.filter (fun e => e.journalID == id)).map (fun e => e.id)
    (.ok (), { st with
      journals := st.journals.filter (fun j => !(j.id == id && j.userSub == userSub)),
      entries := st.entries.filter (fun e => e.journalID != id),
      versions := st.versions.filter (fun v => !(delIds.contains v.entryID)) })
  else (.ok (), st)

/-- `Service.CreateJournal`. -/
def createJournal (st : St) (userSub title description : String) : Except Err Journal × St :=
  let j : Journal :=
    { id := "journal-" ++ toString st.clock, userSub := userSub, title := title,
      description := if description = "" then none else some description }
  (.ok j, { st with journals := st.journals ++ [j], clock := st.clock + 1 })

/-- `Service.CreateEntry`: the create saga, step for step as in
`journal.go` — validate, check the journal, check for a duplicate,
sanitize, upload, commit (compensating with a blob delete on failure),
insert the entry row (compensating likewise), then append the version
row whose failure is swallowed. -/
def createEntry (f : Faults) (st : St) (userSub journalID entryDate content : String) :
    Except Err JournalEntry × St :=
  match parseDate entryDate with
  | none => (.error .validation, st)
  | some date =>
    match lookupJournal st journalID userSub with
    | none => (.error .notFound, st)
    | some _ =>
      match getJournalEntryByDate st journalID date with
      | some _ => (.error .conflict, st)
      | none =>
        let content2 := sanitizeMarkdown content
        let wordCount := countWords content2
        let s3Key := generateKey userSub journalID entryDate
        match s3UploadOp f.s3Upload st s3Key content2 with
        | (.error _, st1) => (.error .storage, st1)
        | (.ok _, st1) =>
          match commitFile f.gitCommit st1 userSub journalID entryDate content2
              ("Entry for " ++ entryDate) with
          | (.error _, st2) =>
            let pr := s3DeleteOp f.s3Delete st2 s3Key
            (.error .commit, pr.2)
          | (.ok commitHash, st2) =>
            let entry0 : JournalEntry :=
              { id := "", journalID := journalID, entryDate := date, s3Key := s3Key,
                gitCommitHash := some commitHash, wordCount := some wordCount }
            match createJournalEntryRow f.dbCreateEntry st2 entry0 with
            | (.error e, st3) =>
              let pr := s3DeleteOp f.s3Delete st3 s3Key
              (.error e, pr.2)
            | (.ok created, st3) =>
              let version : JournalVersion :=
                { id := "", entryID := created.id, commitHash := commitHash,
                  commitMessage := some ("Entry for " ++ entryDate),
                  authorName := some systemAuthorName,
                  authorEmail := some systemAuthorEmail, createdAt := st3.clock }
              let pr := createJournalVersionRow f.dbCreateVersion st3 version
              (.ok created, pr.2)

/-- `Service.GetEntry`: entry row by date, then the independent
ownership check, then the blob download. -/
def getEntry (st : St) (userSub journalID entryDate : String) :
    Except Err (JournalEntry × String) × St :=
  match parseDate entryDate with
  | none => (.error .validation, st)
  | some date =>
    match getJournalEntryByDate st journalID date with
    | none => (.error .notFound, st)
    | some entry =>
      match lookupJournal st journalID userSub with
      | none => (.error .notFound, st)
      | some _ =>
        match s3DownloadOp st entry.s3Key with
        | none => (.error .storage, st)
        | some content => (.ok (entry, content), st)

/-- `Service.UpdateEntry`: the update saga as in `journal.go` —
requires the entry to exist, overwrites the blob, commits (the repo
dedups), updates the row, then appends the version row whose failure is
swallowed. -/
def updateEntry (f : Faults) (st : St) (userSub journalID entryDate content : String) :
    Except Err JournalEntry × St :=
  match parseDate entryDate with
  | none => (.error .validation, st)
  | some date =>
    match getJournalEntryByDate st journalID date with
    | none => (.error .notFound, st)
    | some entry =>
      match lookupJournal st journalID userSub with
      | none => (.error .notFound, st)
      | some _ =>
        let content2 := sanitizeMarkdown content
        let wordCount := countWords content2
        match s3UploadOp f.s3Upload st entry.s3Key content2 with
        | (.error _, st1) => (.error .storage, st1)
        | (.ok _, st1) =>
          match commitFile f.gitCommit st1 userSub journalID entryDate content2
              ("Update entry for " ++ entryDate) with
          | (.error _, st2) => (.error .commit, st2)
          | (.ok commitHash, st2) =>
            let entry2 := { entry with gitCommitHash := some commitHash,
                                       wordCount := some wordCount }
            match updateJournalEntryRow f.dbUpdateEntry st2 entry2 with
            | (.error _, st3) => (.error .dbError, st3)
            | (.ok _, st3) =>
              let version : JournalVersion :=
                { id := "", entryID := entry.id, commitHash := commitHash,
                  commitMessage := some ("Update entry for " ++ entryDate),
                  authorName := some systemAuthorName,
                  authorEmail := some systemAuthorEmail, createdAt := st3.clock }
              let pr := createJournalVersionRow f.dbCreateVersion st3 version
              (.ok entry2, pr.2)

/-- `Service.DeleteEntry`: resolve the entry, verify ownership, delete
the blob best-effort, then delete the row (cascading its versions). -/
def deleteEntry (f : Faults) (st : St) (userSub journalID entryDate : String) :
    Except Err Unit × St :=
  match parseDate entryDate with
  | none => (.error .validation, st)
  | some date =>
    match getJournalEntryByDate st journalID date with
    | none => (.error .notFound, st)
    | some entry =>
      match lookupJournal st journalID userSub with
      | none => (.error .notFound, st)
      | some _ =>
        let pr := s3DeleteOp f.s3Delete st entry.s3Key
        deleteJournalEntryRow pr.2 entry.id

/-- `Service.DeleteJournal`: list the journal's entries, best-effort
delete each blob, then delete the journal row with its cascades. -/
def deleteJournal (f : Faults) (st : St) (id userSub : String) : Except Err Unit × St :=
  let entries := st.entries.filter (fun e => e.journalID == id)
  let st1 := entries.foldl
    (fun acc e => (s3DeleteOp f.s3Delete acc (generateKey userSub id (formatDate e.entryDate))).2)
    st
  deleteJournalRow st1 id userSub

/-- `Service.ListVersions`: ownership check, then the repository walk. -/
def listVersions (st : St) (userSub journalID entryDate : String) :
    Except Err (List CommitInfo) × St :=
  match lookupJournal st journalID userSub with
  | none => (.error .notFound, st)
  | some _ => listCommits st userSub journalID entryDate

/-- `Service.GetVersion`: ownership check only, then a direct
repository read — the entry row is never consulted. -/
def getVersion (st : St) (userSub journalID entryDate commitHash : String) :
    Except Err String × St :=
  match lookupJournal st journalID userSub with
  | none => (.error .notFound, st)
  | some _ => getFileContent st userSub journalID entryDate commitHash

/-- HTTP statuses the handlers produce. -/
inductive HResp
  | created
  | okResp
  | noContent
  | badRequest
  | unauthorized
  | notFoundResp
  | conflictResp
  | serverError
deriving DecidableEq

/-- The handlers' substring-based mapping from service errors to
statuses: only the duplicate-entry and not-found messages are
recognized, everything else is a 500. -/
def errStatus (e : Err) : HResp :=
  match e with
  | .conflict => .conflictResp
  | .notFound => .notFoundResp
  | _ => .serverError

/-- `Handlers.CreateEntry`: auth header, then required-field checks,
then the service call. -/
def handleCreateEntry (f : Faults) (st : St) (userSub journalID entryDate content : String) :
    HResp × St :=
  if userSub = "" then (.unauthorized, st)
  else if entryDate = "" then (.badRequest, st)
  else if content = "" then (.badRequest, st)
  else
    match createEntry f st userSub journalID entryDate content with
    | (.ok _, st1) => (.created, st1)
    | (.error e, st1) => (errStatus e, st1)

/-- `Handlers.UpdateEntry`: auth header, required-content check, then
the service call. -/
def handleUpdateEntry (f : Faults) (st : St) (userSub journalID entryDate content : String) :
    HResp × St :=
  if userSub = "" then (.unauthorized, st)
  else if content = "" then (.badRequest, st)
  else
    match updateEntry f st userSub journalID entryDate content with
    | (.ok _, st1) => (.okResp, st1)
    | (.error e, st1) => (errStatus e, st1)

/-- Every stored repository has at least one commit (a head exists). -/
def reposWF (st : St) : Bool := st.repos.all (fun p => !p.2.commits.isEmpty)

def exceptOk {α : Type} : Except Err α → Bool
  | .ok _ => true
  | .error _ => false

/-- Concrete scenario used by the witnesses: one user, one journal. -/
def jW : String := "journal-0"

def stW0 : St := (createJournal emptySt "u" "J" "").2

/-- After creating the entry for 2025-01-01 with content "A". -/
def stW1 : St := (createEntry noFaults stW0 "u" jW "2025-01-01" "A").2

/-- After additionally creating the entry for 2025-01-02 with content "B". -/
def stW2 : St := (createEntry noFaults stW1 "u" jW "2025-01-02" "B").2

/-- The entry row created in `stW1`. -/
def eW : JournalEntry :=
  { id := "journal-3", journalID := jW, entryDate := ⟨2025, 1, 1⟩,
    s3Key := generateKey "u" jW "2025-01-01", gitCommitHash := some "h2", wordCount := some 1 }

/-- The head commit of the repository in `stW1`. -/
def headW : Commit :=
  { hash := "h2", message := "Entry for 2025-01-01", authorName := systemAuthorName,
    authorEmail := systemAuthorEmail, when := 2,
    tree := [(gitPath jW "2025-01-01", "A"), (".gitkeep", "")] }

/-- The repository of user "u" in `stW1`. -/
def rW : Repo :=
  ⟨[{ hash := "h1", message := "Initial commit", authorName := systemAuthorName,
      authorEmail := systemAuthorEmail, when := 1, tree := [(".gitkeep", "")] },
    headW]⟩

theorem lookupA_setA_self {α : Type} (l : List (String × α)) (k : String) (v : α) :
    lookupA (setA l k v) k = some v := by
  simp [lookupA, setA, List.find?_cons_of_pos]

theorem lookupA_eraseKey_self {α : Type} (l : List (String × α)) (k : String) :
    lookupA (eraseKey l k) k = none := by
  have h : (List.filter (fun p => p.1 != k) l).find? (fun p => p.1 == k) = none := by
    rw [List.find?_eq_none]
    intro x hx
    have h2 := (List.mem_filter.mp hx).2
    simpa using h2
  simp [lookupA, eraseKey, h]

theorem eraseKey_setA {α : Type} (l : List (String × α)) (k : String) (v : α) :
    eraseKey (setA l k v) k = eraseKey l k := by
  simp [eraseKey, setA, List.filter_filter]

theorem find?_append_of_none {α : Type} {p : α → Bool} {l₁ l₂ : List α}
    (h : l₁.find? p = none) : (l₁ ++ l₂).find? p = l₂.find? p := by
  rw [List.find?_append, h, Option.none_or]

theorem getOrInitRepo_s3 (st : St) (u : String) : ((getOrInitRepo st u).2).s3 = st.s3 := by
  unfold getOrInitRepo; split <;> rfl

theorem getOrInitRepo_journals (st : St) (u : String) :
    ((getOrInitRepo st u).2).journals = st.journals := by
  unfold getOrInitRepo; split <;> rfl

theorem getOrInitRepo_entries (st : St) (u : String) :
    ((getOrInitRepo st u).2).entries = st.entries := by
  unfold getOrInitRepo; split <;> rfl

theorem getOrInitRepo_versions (st : St) (u : String) :
    ((getOrInitRepo st u).2).versions = st.versions := by
  unfold getOrInitRepo; split <;> rfl

theorem s3UploadOp_repos (b : Bool) (st : St) (k v : String) :
    ((s3UploadOp b st k v).2).repos = st.repos := by
  unfold s3UploadOp; split <;> rfl

theorem s3UploadOp_journals (b : Bool) (st : St) (k v : String) :
    ((s3UploadOp b st k v).2).journals = st.journals := by
  unfold s3UploadOp; split <;> rfl

theorem s3UploadOp_entries (b : Bool) (st : St) (k v : String) :
    ((s3UploadOp b st k v).2).entries = st.entries := by
  unfold s3UploadOp; split <;> rfl

theorem s3UploadOp_versions (b : Bool) (st : St) (k v : String) :
    ((s3UploadOp b st k v).2).versions = st.versions := by
  unfold s3UploadOp; split <;> rfl

theorem s3DeleteOp_repos (b : Bool) (st : St) (k : String) :
    ((s3DeleteOp b st k).2).repos = st.repos := by
  unfold s3DeleteOp; split <;> rfl

theorem s3DeleteOp_journals (b : Bool) (st : St) (k : String) :
    ((s3DeleteOp b st k).2).journals = st.journals := by
  unfold s3DeleteOp; split <;> rfl

theorem s3DeleteOp_entries (b : Bool) (st : St) (k : String) :
    ((s3DeleteOp b st k).2).entries = st.entries := by
  unfold s3DeleteOp; split <;> rfl

theorem s3DeleteOp_versions (b : Bool) (st : St) (k : String) :
    ((s3DeleteOp b st k).2).versions = st.versions := by
  unfold s3DeleteOp; split <;> rfl

theorem commitFile_s3 (b : Bool) (st : St) (u j d c m : String) :
    ((commitFile b st u j d c m).2).s3 = st.s3 := by
  simp only [commitFile]
  repeat' split
  all_goals simp [getOrInitRepo_s3]

theorem commitFile_journals (b : Bool) (st : St) (u j d c m : String) :
    ((commitFile b st u j d c m).2).journals = st.journals := by
  simp only [commitFile]
  repeat' split
  all_goals simp [getOrInitRepo_journals]

theorem commitFile_entries (b : Bool) (st : St) (u j d c m : String) :
    ((commitFile b st u j d c m).2).entries = st.entries := by
  simp only [commitFile]
  repeat' split
  all_goals simp [getOrInitRepo_entries]

theorem commitFile_versions (b : Bool) (st : St) (u j d c m : String) :
    ((commitFile b st u j d c m).2).versions = st.versions := by
  simp only [commitFile]
  repeat' split
  all_goals simp [getOrInitRepo_versions]

theorem createJournalEntryRow_s3 (b : Bool) (st : St) (e : JournalEntry) :
    ((createJournalEntryRow b st e).2).s3 = st.s3 := by
  unfold createJournalEntryRow; split <;> [rfl; (split <;> rfl)]

theorem createJournalEntryRow_repos (b : Bool) (st : St) (e : JournalEntry) :
    ((createJournalEntryRow b st e).2).repos = st.repos := by
  unfold createJournalEntryRow; split <;> [rfl; (split <;> rfl)]

theorem createJournalEntryRow_journals (b : Bool) (st : St) (e : JournalEntry) :
    ((createJournalEntryRow b st e).2).journals = st.journals := by
  unfold createJournalEntryRow; split <;> [rfl; (split <;> rfl)]

theorem createJournalEntryRow_versions (b : Bool) (st : St) (e : JournalEntry) :
    ((createJournalEntryRow b st e).2).versions = st.versions := by
  unfold createJournalEntryRow; split <;> [rfl; (split <;> rfl)]

theorem createJournalVersionRow_s3 (b : Bool) (st : St) (v : JournalVersion) :
    ((createJournalVersionRow b st v).2).s3 = st.s3 := by
  unfold createJournalVersionRow; split <;> [rfl; (split <;> rfl)]

theorem createJournalVersionRow_repos (b : Bool) (st : St) (v : JournalVersion) :
    ((createJournalVersionRow b st v).2).repos = st.repos := by
  unfold createJournalVersionRow; split <;> [rfl; (split <;> rfl)]

theorem createJournalVersionRow_journals (b : Bool) (st : St) (v : JournalVersion) :
    ((createJournalVersionRow b st v).2).journals = st.journals := by
  unfold createJournalVersionRow; split <;> [rfl; (split <;> rfl)]

theorem createJournalVersionRow_entries (b : Bool) (st : St) (v : JournalVersion) :
    ((createJournalVersionRow b st v).2).entries = st.entries := by
  unfold createJournalVersionRow; split <;> [rfl; (split <;> rfl)]

theorem updateJournalEntryRow_s3 (b : Bool) (st : St) (e : JournalEntry) :
    ((updateJournalEntryRow b st e).2).s3 = st.s3 := by
  unfold updateJournalEntryRow; split <;> rfl

theorem updateJournalEntryRow_repos (b : Bool) (st : St) (e : JournalEntry) :
    ((updateJournalEntryRow b st e).2).repos = st.repos := by
  unfold updateJournalEntryRow; split <;> rfl

theorem updateJournalEntryRow_journals (b : Bool) (st : St) (e : JournalEntry) :
    ((updateJournalEntryRow b st e).2).journals = st.journals := by
  unfold updateJournalEntryRow; split <;> rfl

theorem updateJournalEntryRow_versions (b : Bool) (st : St) (e : JournalEntry) :
    ((updateJournalEntryRow b st e).2).versions = st.versions := by
  unfold updateJournalEntryRow; split <;> rfl

theorem deleteJournalEntryRow_s3 (st : St) (id : String) :
    ((deleteJournalEntryRow st id).2).s3 = st.s3 := rfl

theorem deleteJournalEntryRow_repos (st : St) (id : String) :
    ((deleteJournalEntryRow st id).2).repos = st.repos := rfl

theorem deleteJournalEntryRow_journals (st : St) (id : String) :
    ((deleteJournalEntryRow st id).2).journals = st.journals := rfl

theorem deleteJournalRow_s3 (st : St) (id u : String) :
    ((deleteJournalRow st id u).2).s3 = st.s3 := by
  unfold deleteJournalRow; split <;> rfl

theorem deleteJournalRow_repos (st : St) (id u : String) :
    ((deleteJournalRow st id u).2).repos = st.repos := by
  unfold deleteJournalRow; split <;> rfl

theorem gitPath_ne_gitkeep (j d : String) : gitPath j d ≠ ".gitkeep" := by
  intro h
  have h2 := congrArg (fun s => s.data.reverse.head?) h
  simp [gitPath, String.data_append] at h2

theorem foldl_s3DeleteOp_repos (b : Bool) (u jid : String) (es : List JournalEntry) (st : St) :
    (es.foldl (fun acc e =>
      (s3DeleteOp b acc (generateKey u jid (formatDate e.entryDate))).2) st).repos = st.repos := by
  induction es generalizing st with
  | nil => rfl
  | cons e es ih => simp [List.foldl_cons, ih, s3DeleteOp_repos]

theorem deleteEntry_repos (f : Faults) (st : St) (u j d : String) :
    ((deleteEntry f st u j d).2).repos = st.repos := by
  unfold deleteEntry
  repeat' split
  all_goals simp [deleteJournalEntryRow_repos, s3DeleteOp_repos]

theorem deleteEntry_journals (f : Faults) (st : St) (u j d : String) :
    ((deleteEntry f st u j d).2).journals = st.journals := by
  unfold deleteEntry
  repeat' split
  all_goals simp [deleteJournalEntryRow_journals, s3DeleteOp_journals]

theorem deleteJournal_repos (f : Faults) (st : St) (id u : String) :
    ((deleteJournal f st id u).2).repos = st.repos := by
  unfold deleteJournal
  simp [deleteJournalRow_repos, foldl_s3DeleteOp_repos]

theorem reposWF_lookup (st : St) (u : String) (r : Repo) (hwf : reposWF st = true)
    (h : lookupA st.repos u = some r) : r.commits ≠ [] := by
  unfold lookupA at h
  cases hf : st.repos.find? (fun p => p.1 == u) with
  | none => simp [hf] at h
  | some pr =>
    simp [hf] at h
    have hm := List.mem_of_find?_eq_some hf
    have hall := List.all_eq_true.mp hwf _ hm
    rw [h] at hall
    intro hnil
    rw [hnil] at hall
    simp at hall

theorem getOrInitRepo_nonempty (st : St) (u : String) (hwf : reposWF st = true) :
    ((getOrInitRepo st u).1).commits ≠ [] := by
  unfold getOrInitRepo
  cases h : lookupA st.repos u with
  | some r => simpa using reposWF_lookup st u r hwf h
  | none => simp

theorem all_setA {α : Type} (l : List (String × α)) (k : String) (v : α)
    (P : String × α → Bool) (hl : l.all P = true) (hv : P (k, v) = true) :
    (setA l k v).all P = true := by
  rw [List.all_eq_true] at hl ⊢
  intro x hx
  rcases List.mem_cons.mp hx with h | h
  · rw [h]; exact hv
  · exact hl _ (List.mem_filter.mp h).1

theorem getOrInitRepo_WF (st : St) (u : String) (hwf : reposWF st = true) :
    reposWF ((getOrInitRepo st u).2) = true := by
  unfold getOrInitRepo
  cases h : lookupA st.repos u with
  | some r => simpa using hwf
  | none =>
    simp only [reposWF] at hwf ⊢
    exact all_setA _ _ _ _ hwf (by simp)

theorem commitFile_WF (b : Bool) (st : St) (u j d c m : String) (hwf : reposWF st = true) :
    reposWF ((commitFile b st u j d c m).2) = true := by
  have h1 := getOrInitRepo_WF st u hwf
  simp only [commitFile]
  repeat' split
  all_goals
    first
    | exact h1
    | (simp only [reposWF] at h1 ⊢; exact all_setA _ _ _ _ h1 (by simp))

theorem commitFile_ok (st : St) (u j d c m : String) (hwf : reposWF st = true) :
    exceptOk ((commitFile false st u j d c m).1) = true := by
  have hne := getOrInitRepo_nonempty st u hwf
  cases hl : ((getOrInitRepo st u).1).commits.getLast? with
  | none => exact absurd (List.getLast?_isSome.mpr hne) (by rw [hl]; simp)
  | some head =>
    simp only [commitFile, Bool.false_eq_true, if_false, hl]
    split <;> rfl

/-- C7: a create or update request with empty content is rejected with a
400 ValidationError by the handler before the service runs, so no blob,
commit, or metadata row is produced (the state is unchanged). -/
theorem empty_content_rejected_before_write (f : Faults) (st : St) (u j d c : String)
    (hc : c = "") (hu : u ≠ "") :
    (handleCreateEntry f st u j d c).2 = st ∧
    (handleUpdateEntry f st u j d c).2 = st ∧
    (handleCreateEntry f st u j d c).1 = HResp.badRequest ∧
    (handleUpdateEntry f st u j d c).1 = HResp.badRequest := by
  subst hc
  unfold handleCreateEntry handleUpdateEntry
  by_cases hd : d = "" <;> simp [hu, hd]

theorem empty_content_rejected_before_write_witness :
    ("" : String) = "" ∧ ("u" : String) ≠ "" ∧
    ((handleCreateEntry noFaults stW0 "u" jW "2025-01-01" "").2 = stW0 ∧
     (handleUpdateEntry noFaults stW0 "u" jW "2025-01-01" "").2 = stW0 ∧
     (handleCreateEntry noFaults stW0 "u" jW "2025-01-01" "").1 = HResp.badRequest ∧
     (handleUpdateEntry noFaults stW0 "u" jW "2025-01-01" "").1 = HResp.badRequest) :=
  ⟨rfl, by decide,
    empty_content_rejected_before_write noFaults stW0 "u" jW "2025-01-01" "" rfl (by decide)⟩

/-- C8: DeleteEntry and DeleteJournal never touch the user's version
repository — the repos component of the state is unchanged by both, for
every input and every fault configuration. -/
theorem deletes_never_prune_history (f : Faults) (st : St) (u j d id : String) :
    ((deleteEntry f st u j d).2).repos = st.repos ∧
    ((deleteJournal f st id u).2).repos = st.repos :=
  ⟨deleteEntry_repos f st u j d, deleteJournal_repos f st id u⟩

/-- C9: the per-user repository is created lazily with an initial root
commit, so the repository observed by commitFile, readFileAt and
listCommitsTouching (all of which open it through GetOrInitRepo) always
has a head; the well-formedness is preserved by initialization and by
commits, and a fault-free commit never fails for lack of a head. -/
theorem repo_head_always_exists (st : St) (u j d c m : String) (b : Bool)
    (hwf : reposWF st = true) :
    ((getOrInitRepo st u).1).commits ≠ [] ∧
    reposWF ((getOrInitRepo st u).2) = true ∧
    reposWF ((commitFile b st u j d c m).2) = true ∧
    exceptOk ((commitFile false st u j d c m).1) = true :=
  ⟨getOrInitRepo_nonempty st u hwf, getOrInitRepo_WF st u hwf,
   commitFile_WF b st u j d c m hwf, commitFile_ok st u j d c m hwf⟩

theorem repo_head_always_exists_witness :
    reposWF emptySt = true ∧
    (((getOrInitRepo emptySt "u").1).commits ≠ [] ∧
     reposWF ((getOrInitRepo emptySt "u").2) = true ∧
     reposWF ((commitFile true emptySt "u" "j" "d" "c" "m").2) = true ∧
     exceptOk ((commitFile false emptySt "u" "j" "d" "c" "m").1) = true) :=
  ⟨rfl, repo_head_always_exists emptySt "u" "j" "d" "c" "m" true rfl⟩

theorem createEntry_commitFail (f : Faults) (st : St) (u j d c : String) (date : Date)
    (hg : f.gitCommit = true) (hsu : f.s3Upload = false)
    (hp : parseDate d = some date)
    (hj : (lookupJournal st j u).isSome = true)
    (he : getJournalEntryByDate st j date = none) :
    createEntry f st u j d c =
      (.error .commit,
        (s3DeleteOp f.s3Delete
          ((getOrInitRepo ((s3UploadOp false st (generateKey u j d)
            (sanitizeMarkdown c)).2) u).2)
          (generateKey u j d)).2) := by
  obtain ⟨jv, hjv⟩ := Option.isSome_iff_exists.mp hj
  simp only [createEntry, hp, hjv, he, hsu, commitFile, hg, if_true]
  simp [s3UploadOp]

/-- C4: when the version-repository commit of CreateEntry fails after
the blob write, the coordinator compensates by deleting the blob (when
the delete itself does not fail the key is gone), no entry or version
row is produced, and the surfaced error is the CommitError even when
the compensating delete fails. -/
theorem commit_fail_compensated_with_commit_error (f : Faults) (st : St) (u j d c : String)
    (date : Date)
    (hg : f.gitCommit = true) (hsu : f.s3Upload = false)
    (hp : parseDate d = some date)
    (hj : (lookupJournal st j u).isSome = true)
    (he : getJournalEntryByDate st j date = none) :
    (createEntry f st u j d c).1 = .error .commit ∧
    ((createEntry f st u j d c).2).entries = st.entries ∧
    ((createEntry f st u j d c).2).versions = st.versions ∧
    lookupA ((createEntry { f with s3Delete := false } st u j d c).2).s3
      (generateKey u j d) = none := by
  have h1 := createEntry_commitFail f st u j d c date hg hsu hp hj he
  have h2 := createEntry_commitFail { f with s3Delete := false } st u j d c date hg hsu hp hj he
  refine ⟨by rw [h1], ?_, ?_, ?_⟩
  · rw [h1]
    simp [s3DeleteOp_entries, getOrInitRepo_entries, s3UploadOp_entries]
  · rw [h1]
    simp [s3DeleteOp_versions, getOrInitRepo_versions, s3UploadOp_versions]
  · rw [h2]
    simp only [s3DeleteOp, Bool.false_eq_true, if_false]
    exact lookupA_eraseKey_self _ _

theorem commit_fail_compensated_with_commit_error_witness :
    ((⟨false, false, true, false, false, false⟩ : Faults).gitCommit = true ∧
     parseDate "2025-01-01" = some ⟨2025, 1, 1⟩ ∧
     (lookupJournal stW0 jW "u").isSome = true ∧
     getJournalEntryByDate stW0 jW ⟨2025, 1, 1⟩ = none) ∧
    ((createEntry ⟨false, false, true, false, false, false⟩ stW0 "u" jW "2025-01-01" "A").1 =
        .error .commit ∧
     ((createEntry ⟨false, false, true, false, false, false⟩ stW0 "u" jW "2025-01-01" "A").2).entries =
        stW0.entries ∧
     ((createEntry ⟨false, false, true, false, false, false⟩ stW0 "u" jW "2025-01-01" "A").2).versions =
        stW0.versions ∧
     lookupA ((createEntry { (⟨false, false, true, false, false, false⟩ : Faults) with
        s3Delete := false } stW0 "u" jW "2025-01-01" "A").2).s3
       (generateKey "u" jW "2025-01-01") = none) :=
  ⟨⟨rfl, by decide, by decide, by decide⟩,
   commit_fail_compensated_with_commit_error ⟨false, false, true, false, false, false⟩ stW0
     "u" jW "2025-01-01" "A" ⟨2025, 1, 1⟩ rfl rfl (by decide) (by decide) (by decide)⟩

theorem exceptOk_exists {α : Type} {x : Except Err α} (h : exceptOk x = true) :
    ∃ a, x = .ok a := by
  cases x with
  | ok a => exact ⟨a, rfl⟩
  | error e => simp [exceptOk] at h

theorem reposWF_eq_of_repos {st st2 : St} (h : st2.repos = st.repos) :
    reposWF st2 = reposWF st := by
  unfold reposWF; rw [h]

/-- C5: a failure of the Version-row append never fails CreateEntry or
UpdateEntry — with the version insert forced to fail and every earlier
step succeeding, both operations still return ok. -/
theorem version_append_failure_is_nonfatal (f : Faults) (st : St)
    (u j d1 c1 d2 c2 : String) (date1 date2 : Date) (e : JournalEntry)
    (hsu : f.s3Upload = false) (hg : f.gitCommit = false) (hv : f.dbCreateVersion = true)
    (hde : f.dbCreateEntry = false) (hdu : f.dbUpdateEntry = false)
    (hwf : reposWF st = true)
    (hp1 : parseDate d1 = some date1)
    (hj1 : (lookupJournal st j u).isSome = true)
    (he1 : getJournalEntryByDate st j date1 = none)
    (hp2 : parseDate d2 = some date2)
    (he2 : getJournalEntryByDate st j date2 = some e) :
    exceptOk ((createEntry f st u j d1 c1).1) = true ∧
    exceptOk ((updateEntry f st u j d2 c2).1) = true := by
  obtain ⟨jv, hjv⟩ := Option.isSome_iff_exists.mp hj1
  constructor
  · simp only [createEntry, hp1, hjv, he1, hsu, hg]
    simp only [s3UploadOp, Bool.false_eq_true, if_false]
    have hwf1 : reposWF { st with s3 := setA st.s3 (generateKey u j d1) (sanitizeMarkdown c1) } =
        true := by rw [reposWF_eq_of_repos rfl]; exact hwf
    obtain ⟨hsh, hok⟩ := exceptOk_exists (commitFile_ok _ u j d1 (sanitizeMarkdown c1)
      ("Entry for " ++ d1) hwf1)
    cases hpair : commitFile false
        { st with s3 := setA st.s3 (generateKey u j d1) (sanitizeMarkdown c1) }
        u j d1 (sanitizeMarkdown c1) ("Entry for " ++ d1) with
    | mk r s2 =>
      rw [hpair] at hok
      simp only at hok
      subst hok
      have hst2 := congrArg Prod.snd hpair
      simp only at hst2
      have hent : s2.entries = st.entries := by
        rw [← hst2, commitFile_entries]
      simp only [createJournalEntryRow, hde, Bool.false_eq_true, if_false, hent]
      unfold getJournalEntryByDate at he1
      simp only [he1, Option.isSome_none, Bool.false_eq_true, if_false]
      rfl
  · simp only [updateEntry, hp2, he2, hjv, hsu, hg]
    simp only [s3UploadOp, Bool.false_eq_true, if_false]
    have hwf1 : reposWF { st with s3 := setA st.s3 e.s3Key (sanitizeMarkdown c2) } = true := by
      rw [reposWF_eq_of_repos rfl]; exact hwf
    obtain ⟨hsh, hok⟩ := exceptOk_exists (commitFile_ok _ u j d2 (sanitizeMarkdown c2)
      ("Update entry for " ++ d2) hwf1)
    cases hpair : commitFile false { st with s3 := setA st.s3 e.s3Key (sanitizeMarkdown c2) }
        u j d2 (sanitizeMarkdown c2) ("Update entry for " ++ d2) with
    | mk r s2 =>
      rw [hpair] at hok
      simp only at hok
      subst hok
      simp only [updateJournalEntryRow, hdu, Bool.false_eq_true, if_false]
      rfl

theorem version_append_failure_is_nonfatal_witness :
    ((⟨false, false, false, false, false, true⟩ : Faults).dbCreateVersion = true ∧
     reposWF stW1 = true ∧
     parseDate "2025-01-02" = some ⟨2025, 1, 2⟩ ∧
     getJournalEntryByDate stW1 jW ⟨2025, 1, 2⟩ = none ∧
     getJournalEntryByDate stW1 jW ⟨2025, 1, 1⟩ = some eW) ∧
    (exceptOk ((createEntry ⟨false, false, false, false, false, true⟩ stW1
        "u" jW "2025-01-02" "C").1) = true ∧
     exceptOk ((updateEntry ⟨false, false, false, false, false, true⟩ stW1
        "u" jW "2025-01-01" "D").1) = true) :=
  ⟨⟨rfl, by decide, by decide, by decide, by decide⟩,
   version_append_failure_is_nonfatal ⟨false, false, false, false, false, true⟩ stW1
     "u" jW "2025-01-02" "C" "2025-01-01" "D" ⟨2025, 1, 2⟩ ⟨2025, 1, 1⟩ eW
     rfl rfl rfl rfl rfl (by decide) (by decide) (by decide) (by decide) (by decide) (by decide)⟩

/-- C2: after a successful CreateEntry, a second CreateEntry for the
same (journal, date) fails with Conflict and returns the state of the
first call unchanged — the duplicate check short-circuits before any
backend write. -/
theorem second_create_conflicts_no_write (f f2 : Faults) (st : St) (u j d c c2 : String)
    (h : exceptOk ((createEntry f st u j d c).1) = true) :
    createEntry f2 ((createEntry f st u j d c).2) u j d c2 =
      (.error .conflict, (createEntry f st u j d c).2) := by
  cases hp : parseDate d with
  | none => simp [createEntry, hp, exceptOk] at h
  | some date =>
  cases hjv : lookupJournal st j u with
  | none => simp [createEntry, hp, hjv, exceptOk] at h
  | some jv =>
  cases he : getJournalEntryByDate st j date with
  | some e0 => simp [createEntry, hp, hjv, he, exceptOk] at h
  | none =>
  cases hup : s3UploadOp f.s3Upload st (generateKey u j d) (sanitizeMarkdown c) with
  | mk r1 st1 =>
  cases r1 with
  | error e1 => simp [createEntry, hp, hjv, he, hup, exceptOk] at h
  | ok u1 =>
  cases hcf : commitFile f.gitCommit st1 u j d (sanitizeMarkdown c) ("Entry for " ++ d) with
  | mk r2 st2 =>
  cases r2 with
  | error e2 => simp [createEntry, hp, hjv, he, hup, hcf, exceptOk] at h
  | ok hash =>
  cases hce : createJournalEntryRow f.dbCreateEntry st2
      { id := "", journalID := j, entryDate := date, s3Key := generateKey u j d,
        gitCommitHash := some hash,
        wordCount := some (countWords (sanitizeMarkdown c)) } with
  | mk r3 st3 =>
  cases r3 with
  | error e3 => simp [createEntry, hp, hjv, he, hup, hcf, hce, exceptOk] at h
  | ok created =>
  have hresult : createEntry f st u j d c =
      (.ok created, (createJournalVersionRow f.dbCreateVersion st3
        { id := "", entryID := created.id, commitHash := hash,
          commitMessage := some ("Entry for " ++ d),
          authorName := some systemAuthorName,
          authorEmail := some systemAuthorEmail, createdAt := st3.clock }).2) := by
    simp [createEntry, hp, hjv, he, hup, hcf, hce]
  rw [hresult]
  dsimp only
  have hce' := hce
  unfold createJournalEntryRow at hce'
  split at hce'
  · simp at hce'
  · split at hce'
    · simp at hce'
    · simp only [Prod.mk.injEq, Except.ok.injEq] at hce'
      obtain ⟨hcreated, hst3⟩ := hce'
      have hst1 := congrArg Prod.snd hup
      simp only at hst1
      have hst2 := congrArg Prod.snd hcf
      simp only at hst2
      have hj1 : st1.journals = st.journals := by rw [← hst1, s3UploadOp_journals]
      have hj2 : st2.journals = st.journals := by rw [← hst2, commitFile_journals, hj1]
      have he1 : st1.entries = st.entries := by rw [← hst1, s3UploadOp_entries]
      have he2 : st2.entries = st.entries := by rw [← hst2, commitFile_entries, he1]
      have hjF : ((createJournalVersionRow f.dbCreateVersion st3
          { id := "", entryID := created.id, commitHash := hash,
            commitMessage := some ("Entry for " ++ d),
            authorName := some systemAuthorName,
            authorEmail := some systemAuthorEmail, createdAt := st3.clock }).2).journals =
          st.journals := by
        rw [createJournalVersionRow_journals, ← hst3]
        simpa using hj2
      have heF : ((createJournalVersionRow f.dbCreateVersion st3
          { id := "", entryID := created.id, commitHash := hash,
            commitMessage := some ("Entry for " ++ d),
            authorName := some systemAuthorName,
            authorEmail := some systemAuthorEmail, createdAt := st3.clock }).2).entries =
          st.entries ++ [{ id := "journal-" ++ toString st2.clock, journalID := j,
                           entryDate := date, s3Key := generateKey u j d,
                           gitCommitHash := some hash,
                           wordCount := some (countWords (sanitizeMarkdown c)) }] := by
        rw [createJournalVersionRow_entries, ← hst3]
        simpa using he2
      unfold getJournalEntryByDate at he
      have hfind : (((createJournalVersionRow f.dbCreateVersion st3
          { id := "", entryID := created.id, commitHash := hash,
            commitMessage := some ("Entry for " ++ d),
            authorName := some systemAuthorName,
            authorEmail := some systemAuthorEmail, createdAt := st3.clock }).2).entries).find?
          (fun e => e.journalID == j && e.entryDate == date) =
          some { id := "journal-" ++ toString st2.clock, journalID := j,
                 entryDate := date, s3Key := generateKey u j d,
                 gitCommitHash := some hash,
                 wordCount := some (countWords (sanitizeMarkdown c)) } := by
        rw [heF, find?_append_of_none he]
        simp
      have hjv2 : ((createJournalVersionRow f.dbCreateVersion st3
          { id := "", entryID := created.id, commitHash := hash,
            commitMessage := some ("Entry for " ++ d),
            authorName := some systemAuthorName,
            authorEmail := some systemAuthorEmail, createdAt := st3.clock }).2).journals.find?
          (fun jj => jj.id == j && jj.userSub == u) = some jv := by
        rw [hjF]; exact hjv
      simp only [createEntry, hp, lookupJournal, hjv2, getJournalEntryByDate, hfind]

theorem second_create_conflicts_no_write_witness :
    exceptOk ((createEntry noFaults stW0 "u" jW "2025-01-01" "A").1) = true ∧
    createEntry noFaults ((createEntry noFaults stW0 "u" jW "2025-01-01" "A").2)
        "u" jW "2025-01-01" "B" =
      (.error .conflict, (createEntry noFaults stW0 "u" jW "2025-01-01" "A").2) :=
  ⟨by decide,
   second_create_conflicts_no_write noFaults noFaults stW0 "u" jW "2025-01-01" "A" "B"
     (by decide)⟩

/-- C1: after a successful CreateEntry, GetEntry for the same
(user, journal, date) returns a content body equal to the normalized
form of the raw content (NULs removed, CRLF and CR turned into LF). -/
theorem create_then_get_returns_normalized (f : Faults) (st : St) (u j d raw : String)
    (h : exceptOk ((createEntry f st u j d raw).1) = true) :
    ∃ e, (getEntry ((createEntry f st u j d raw).2) u j d).1 =
      .ok (e, sanitizeMarkdown raw) := by
  cases hp : parseDate d with
  | none => simp [createEntry, hp, exceptOk] at h
  | some date =>
  cases hjv : lookupJournal st j u with
  | none => simp [createEntry, hp, hjv, exceptOk] at h
  | some jv =>
  cases he : getJournalEntryByDate st j date with
  | some e0 => simp [createEntry, hp, hjv, he, exceptOk] at h
  | none =>
  cases hup : s3UploadOp f.s3Upload st (generateKey u j d) (sanitizeMarkdown raw) with
  | mk r1 st1 =>
  cases r1 with
  | error e1 => simp [createEntry, hp, hjv, he, hup, exceptOk] at h
  | ok u1 =>
  cases hcf : commitFile f.gitCommit st1 u j d (sanitizeMarkdown raw) ("Entry for " ++ d) with
  | mk r2 st2 =>
  cases r2 with
  | error e2 => simp [createEntry, hp, hjv, he, hup, hcf, exceptOk] at h
  | ok hash =>
  cases hce : createJournalEntryRow f.dbCreateEntry st2
      { id := "", journalID := j, entryDate := date, s3Key := generateKey u j d,
        gitCommitHash := some hash,
        wordCount := some (countWords (sanitizeMarkdown raw)) } with
  | mk r3 st3 =>
  cases r3 with
  | error e3 => simp [createEntry, hp, hjv, he, hup, hcf, hce, exceptOk] at h
  | ok created =>
  have hresult : createEntry f st u j d raw =
      (.ok created, (createJournalVersionRow f.dbCreateVersion st3
          { id := "", entryID := created.id, commitHash := hash,
            commitMessage := some ("Entry for " ++ d),
            authorName := some systemAuthorName,
            authorEmail := some systemAuthorEmail, createdAt := st3.clock }).2) := by
    simp [createEntry, hp, hjv, he, hup, hcf, hce]
  rw [hresult]
  dsimp only
  have hce' := hce
  unfold createJournalEntryRow at hce'
  split at hce'
  · simp at hce'
  · split at hce'
    · simp at hce'
    · simp only [Prod.mk.injEq, Except.ok.injEq] at hce'
      obtain ⟨hcreated, hst3⟩ := hce'
      have hst2 := congrArg Prod.snd hcf
      simp only at hst2
      have hup' := hup
      unfold s3UploadOp at hup'
      split at hup'
      · simp at hup'
      · simp only [Prod.mk.injEq, Except.ok.injEq] at hup'
        obtain ⟨-, hst1⟩ := hup'
        have hs1 : st1.s3 = setA st.s3 (generateKey u j d) (sanitizeMarkdown raw) := by
          rw [← hst1]
        have hs2 : st2.s3 = setA st.s3 (generateKey u j d) (sanitizeMarkdown raw) := by
          rw [← hst2, commitFile_s3, hs1]
        have hj1 : st1.journals = st.journals := by rw [← hst1]
        have hj2 : st2.journals = st.journals := by rw [← hst2, commitFile_journals, hj1]
        have hjF : ((createJournalVersionRow f.dbCreateVersion st3
            { id := "", entryID := created.id, commitHash := hash,
              commitMessage := some ("Entry for " ++ d),
              authorName := some systemAuthorName,
              authorEmail := some systemAuthorEmail, createdAt := st3.clock }).2).journals =
            st.journals := by
          rw [createJournalVersionRow_journals, ← hst3]
          simpa using hj2
        have he1 : st1.entries = st.entries := by rw [← hst1]
        have he2 : st2.entries = st.entries := by rw [← hst2, commitFile_entries, he1]
        have heF : ((createJournalVersionRow f.dbCreateVersion st3
            { id := "", entryID := created.id, commitHash := hash,
              commitMessage := some ("Entry for " ++ d),
              authorName := some systemAuthorName,
              authorEmail := some systemAuthorEmail, createdAt := st3.clock }).2).entries =
            st.entries ++ [{ id := "journal-" ++ toString st2.clock, journalID := j,
                             entryDate := date, s3Key := generateKey u j d,
                             gitCommitHash := some hash,
                             wordCount := some (countWords (sanitizeMarkdown raw)) }] := by
          rw [createJournalVersionRow_entries, ← hst3]
          simpa using he2
        have hsF : ((createJournalVersionRow f.dbCreateVersion st3
            { id := "", entryID := created.id, commitHash := hash,
              commitMessage := some ("Entry for " ++ d),
              authorName := some systemAuthorName,
              authorEmail := some systemAuthorEmail, createdAt := st3.clock }).2).s3 =
            setA st.s3 (generateKey u j d) (sanitizeMarkdown raw) := by
          rw [createJournalVersionRow_s3, ← hst3]
          simpa using hs2
        unfold getJournalEntryByDate at he
        have hfind : (((createJournalVersionRow f.dbCreateVersion st3
            { id := "", entryID := created.id, commitHash := hash,
              commitMessage := some ("Entry for " ++ d),
              authorName := some systemAuthorName,
              authorEmail := some systemAuthorEmail, createdAt := st3.clock }).2).entries).find?
            (fun e => e.journalID == j && e.entryDate == date) =
            some { id := "journal-" ++ toString st2.clock, journalID := j,
                   entryDate := date, s3Key := generateKey u j d,
                   gitCommitHash := some hash,
                   wordCount := some (countWords (sanitizeMarkdown raw)) } := by
          rw [heF, find?_append_of_none he]
          simp
        have hjv2 : ((createJournalVersionRow f.dbCreateVersion st3
            { id := "", entryID := created.id, commitHash := hash,
              commitMessage := some ("Entry for " ++ d),
              authorName := some systemAuthorName,
              authorEmail := some systemAuthorEmail, createdAt := st3.clock }).2).journals.find?
            (fun jj => jj.id == j && jj.userSub == u) = some jv := by
          rw [hjF]; exact hjv
        refine ⟨{ id := "journal-" ++ toString st2.clock, journalID := j,
                  entryDate := date, s3Key := generateKey u j d,
                  gitCommitHash := some hash,
                  wordCount := some (countWords (sanitizeMarkdown raw)) }, ?_⟩
        simp only [getEntry, hp, getJournalEntryByDate, hfind, lookupJournal, hjv2,
          s3DownloadOp, hsF, lookupA_setA_self]

theorem create_then_get_returns_normalized_witness :
    exceptOk ((createEntry noFaults stW0 "u" jW "2025-01-01" "L1\r\nL2\rL3\x00!").1) = true ∧
    ∃ e, (getEntry ((createEntry noFaults stW0 "u" jW "2025-01-01" "L1\r\nL2\rL3\x00!").2)
        "u" jW "2025-01-01").1 =
      .ok (e, sanitizeMarkdown "L1\r\nL2\rL3\x00!") :=
  ⟨by decide,
   create_then_get_returns_normalized noFaults stW0 "u" jW "2025-01-01" "L1\r\nL2\rL3\x00!"
     (by decide)⟩

/-- C6: ListVersions returns exactly the commits of the user's history
whose tree contains the entry's file path, and (since history timestamps
ascend) in chronological ascending order, oldest first. -/
theorem listversions_path_commits_ascending (st : St) (u j d : String)
    (hj : (lookupJournal st j u).isSome = true)
    (hwf : reposWF st = true)
    (hsorted : List.Pairwise (fun a b => a.when ≤ b.when) ((getOrInitRepo st u).1).commits) :
    (listVersions st u j d).1 =
      .ok ((((getOrInitRepo st u).1).commits.filter
        (fun c => (lookupA c.tree (gitPath j d)).isSome)).map commitToInfo) ∧
    List.Pairwise (fun a b => a.createdAt ≤ b.createdAt)
      ((((getOrInitRepo st u).1).commits.filter
        (fun c => (lookupA c.tree (gitPath j d)).isSome)).map commitToInfo) := by
  obtain ⟨jv, hjv⟩ := Option.isSome_iff_exists.mp hj
  have hne := getOrInitRepo_nonempty st u hwf
  cases hl : ((getOrInitRepo st u).1).commits.getLast? with
  | none => exact absurd (List.getLast?_isSome.mpr hne) (by rw [hl]; simp)
  | some chead =>
    constructor
    · simp only [listVersions, hjv, listCommits, hl]
      rw [List.filter_reverse, List.map_reverse, List.reverse_reverse]
    · refine List.pairwise_map.mpr ?_
      exact List.Pairwise.sublist (List.filter_sublist _) hsorted

theorem listversions_path_commits_ascending_witness :
    (lookupJournal stW2 jW "u").isSome = true ∧ reposWF stW2 = true ∧
    List.Pairwise (fun a b => a.when ≤ b.when) ((getOrInitRepo stW2 "u").1).commits ∧
    ((listVersions stW2 "u" jW "2025-01-01").1 =
      .ok ((((getOrInitRepo stW2 "u").1).commits.filter
        (fun c => (lookupA c.tree (gitPath jW "2025-01-01")).isSome)).map commitToInfo) ∧
     List.Pairwise (fun a b => a.createdAt ≤ b.createdAt)
      ((((getOrInitRepo stW2 "u").1).commits.filter
        (fun c => (lookupA c.tree (gitPath jW "2025-01-01")).isSome)).map commitToInfo)) :=
  ⟨by decide, by decide, by decide,
   listversions_path_commits_ascending stW2 "u" jW "2025-01-01" (by decide) (by decide)
     (by decide)⟩

theorem lookupA_gitkeep_only (path : String) (hpath : path ≠ ".gitkeep") :
    lookupA ([(".gitkeep", "")] : List (String × String)) path = none := by
  unfold lookupA
  rw [List.find?_cons_of_neg]
  · rfl
  · simp
    exact fun h => hpath h.symm

theorem getFileContent_fresh (st : St) (u j d hash : String)
    (hr : lookupA st.repos u = none) :
    (getFileContent st u j d hash).1 = .error .notFound := by
  have hk := lookupA_gitkeep_only (gitPath j d) (gitPath_ne_gitkeep j d)
  by_cases hh : hash = "" <;>
    simp only [getFileContent, getOrInitRepo, hr, hh, if_true, if_false]
  · simp [hk]
  · by_cases hx : "h" ++ toString st.clock = hash <;> simp [hx, hk]

theorem getFileContent_congr (st st2 : St) (u j d hash : String) (r : Repo)
    (h1 : lookupA st.repos u = some r) (h2 : lookupA st2.repos u = some r) :
    (getFileContent st u j d hash).1 = (getFileContent st2 u j d hash).1 := by
  simp only [getFileContent, getOrInitRepo, h1, h2]
  cases hf : (if hash = "" then r.commits.getLast?
      else r.commits.find? (fun c => c.hash == hash)) with
  | none => simp [hf]
  | some c => cases hT : lookupA c.tree (gitPath j d) <;> simp [hf, hT]

/-- C10: GetVersion checks only journal existence and ownership, never
the entry's metadata row — its result is unchanged when the entry and
version tables are replaced arbitrarily, and after DeleteEntry for the
same (user, journal, date) it still returns the historical content. -/
theorem getversion_ignores_entry_rows (f : Faults) (st : St) (u j d content hash : String)
    (es : List JournalEntry) (vs : List JournalVersion)
    (h : (getVersion st u j d hash).1 = .ok content) :
    (getVersion { st with entries := es, versions := vs } u j d hash).1 = .ok content ∧
    (getVersion ((deleteEntry f st u j d).2) u j d hash).1 = .ok content := by
  cases hjv : lookupJournal st j u with
  | none => simp [getVersion, hjv] at h
  | some jv =>
  simp only [getVersion, hjv] at h
  cases hr : lookupA st.repos u with
  | none =>
    rw [getFileContent_fresh st u j d hash hr] at h
    exact absurd h (by simp)
  | some r =>
    constructor
    · have hjv2 : lookupJournal { st with entries := es, versions := vs } j u = some jv := hjv
      have hr2 : lookupA ({ st with entries := es, versions := vs } : St).repos u = some r := hr
      simp only [getVersion, hjv2]
      rw [getFileContent_congr _ st u j d hash r hr2 hr]
      exact h
    · have hjv2 : lookupJournal ((deleteEntry f st u j d).2) j u = some jv := by
        unfold lookupJournal
        rw [deleteEntry_journals]
        exact hjv
      have hr2 : lookupA (((deleteEntry f st u j d).2)).repos u = some r := by
        rw [deleteEntry_repos]
        exact hr
      simp only [getVersion, hjv2]
      rw [getFileContent_congr _ st u j d hash r hr2 hr]
      exact h

theorem getversion_ignores_entry_rows_witness :
    (getVersion stW1 "u" jW "2025-01-01" "h2").1 = .ok "A" ∧
    ((getVersion { stW1 with entries := [], versions := [] } "u" jW "2025-01-01" "h2").1 =
        .ok "A" ∧
     (getVersion ((deleteEntry noFaults stW1 "u" jW "2025-01-01").2)
        "u" jW "2025-01-01" "h2").1 = .ok "A") :=
  ⟨by decide,
   getversion_ignores_entry_rows noFaults stW1 "u" jW "2025-01-01" "A" "h2" [] []
     (by decide)⟩

/-- C3 counterexample: in `stW2` the entry for 2025-01-01 holds "A" at
the repository head (the claim's identical-content premise), and a
fault-free UpdateEntry with "A" creates no commit (repos unchanged) yet
INSERTS a new Version row — the version table grows from 2 to 3 rows,
because the repository head is the other entry's commit and the dedup
of version rows rests solely on the (entry, commit) unique constraint. -/
theorem identical_update_adds_version_row :
    lookupA ((((getOrInitRepo stW2 "u").1).commits.getLast?.map Commit.tree).getD [])
        (gitPath jW "2025-01-01") = some (sanitizeMarkdown "A") ∧
    ((updateEntry noFaults stW2 "u" jW "2025-01-01" "A").2).repos = stW2.repos ∧
    stW2.versions.length = 2 ∧
    ((updateEntry noFaults stW2 "u" jW "2025-01-01" "A").2).versions.length = 3 := by
  decide

theorem createJournalVersionRow_dup (b : Bool) (st : St) (v : JournalVersion)
    (hdup : (st.versions.find? (fun v2 => v2.entryID == v.entryID &&
      v2.commitHash == v.commitHash)).isSome = true) :
    createJournalVersionRow b st v = (.error .dbError, st) := by
  unfold createJournalVersionRow
  split
  · rfl
  · simp [hdup]

theorem listVersions_fst_congr (st st2 : St) (u j d : String) (r : Repo)
    (hjs : st2.journals = st.journals) (hrs : st2.repos = st.repos)
    (hr : lookupA st.repos u = some r) :
    (listVersions st2 u j d).1 = (listVersions st u j d).1 := by
  unfold listVersions lookupJournal
  rw [hjs]
  cases hfj : st.journals.find? (fun jj => jj.id == j && jj.userSub == u) with
  | none => rfl
  | some jv =>
    unfold listCommits getOrInitRepo
    rw [hrs, hr]
    dsimp only
    cases hl : r.commits.getLast? <;> simp [hl]

/-- C3 (amended): UpdateEntry with content whose normalized form equals
the content recorded for the entry's path at the repository head
produces no new commit and leaves ListVersions unchanged; provided a
Version row for (entry, head commit) already exists — in particular
when the head is the entry's own latest recorded write — no new Version
row is produced either, so beyond re-confirming metadata and rewriting
the blob with identical content nothing changes. -/
theorem identical_update_noop_when_head_version_recorded (f : Faults) (st : St)
    (u j d c : String) (date : Date) (entry : JournalEntry) (r : Repo) (head : Commit)
    (hsu : f.s3Upload = false) (hg : f.gitCommit = false) (hdu : f.dbUpdateEntry = false)
    (hp : parseDate d = some date)
    (he : getJournalEntryByDate st j date = some entry)
    (hj : (lookupJournal st j u).isSome = true)
    (hr : lookupA st.repos u = some r)
    (hh : r.commits.getLast? = some head)
    (hclean : lookupA head.tree (gitPath j d) = some (sanitizeMarkdown c))
    (hvex : (st.versions.find? (fun v => v.entryID == entry.id &&
        v.commitHash == head.hash)).isSome = true) :
    exceptOk ((updateEntry f st u j d c).1) = true ∧
    ((updateEntry f st u j d c).2).repos = st.repos ∧
    ((updateEntry f st u j d c).2).versions = st.versions ∧
    (listVersions ((updateEntry f st u j d c).2) u j d).1 = (listVersions st u j d).1 := by
  obtain ⟨jv, hjv⟩ := Option.isSome_iff_exists.mp hj
  have hr1 : lookupA ({ st with s3 := setA st.s3 entry.s3Key (sanitizeMarkdown c) } : St).repos
      u = some r := hr
  have hresult : updateEntry f st u j d c =
      (.ok { entry with gitCommitHash := some head.hash,
                        wordCount := some (countWords (sanitizeMarkdown c)) },
        { st with s3 := setA st.s3 entry.s3Key (sanitizeMarkdown c),
                  entries := st.entries.map (fun e2 =>
                    if e2.id == entry.id then
                      { e2 with s3Key := entry.s3Key, gitCommitHash := some head.hash,
                                wordCount := some (countWords (sanitizeMarkdown c)) }
                    else e2) }) := by
    simp only [updateEntry, hp, he, hjv, hsu, Bool.false_eq_true, if_false, s3UploadOp,
      commitFile, getOrInitRepo, hr1, hg, hh, hclean, if_pos, updateJournalEntryRow, hdu]
    rw [createJournalVersionRow_dup]
    simpa using hvex
  rw [hresult]
  refine ⟨rfl, rfl, rfl, ?_⟩
  exact listVersions_fst_congr st _ u j d r rfl rfl hr

theorem identical_update_noop_when_head_version_recorded_witness :
    (parseDate "2025-01-01" = some ⟨2025, 1, 1⟩ ∧
     getJournalEntryByDate stW1 jW ⟨2025, 1, 1⟩ = some eW ∧
     lookupA stW1.repos "u" = some rW ∧
     rW.commits.getLast? = some headW ∧
     lookupA headW.tree (gitPath jW "2025-01-01") = some (sanitizeMarkdown "A") ∧
     (stW1.versions.find? (fun v => v.entryID == eW.id &&
        v.commitHash == headW.hash)).isSome = true) ∧
    (exceptOk ((updateEntry noFaults stW1 "u" jW "2025-01-01" "A").1) = true ∧
     ((updateEntry noFaults stW1 "u" jW "2025-01-01" "A").2).repos = stW1.repos ∧
     ((updateEntry noFaults stW1 "u" jW "2025-01-01" "A").2).versions = stW1.versions ∧
     (listVersions ((updateEntry noFaults stW1 "u" jW "2025-01-01" "A").2) "u" jW
        "2025-01-01").1 = (listVersions stW1 "u" jW "2025-01-01").1) :=
  ⟨⟨by decide, by decide, by decide, by decide, by decide, by decide⟩,
   identical_update_noop_when_head_version_recorded noFaults stW1 "u" jW "2025-01-01" "A"
     ⟨2025, 1, 1⟩ eW rW headW rfl rfl rfl (by decide) (by decide) (by decide) (by decide)
     (by decide) (by decide) (by decide)⟩

end LLJournal
